import Mathlib

/-!
Shallow embedding of `tracing-rewrite` (src/src/lib.rs): a level-override
formatter for the `tracing` ecosystem.  The crate wraps a downstream
`FormatEvent` implementation together with a predicate
`check : &Metadata -> Option<Level>`; when the predicate returns a level it
rebuilds the event's metadata with that level and re-presents the captured
field values against it, otherwise it delegates unchanged.

Modelling conventions:
* references and `'static` data become plain values (the `transmute_copy`
  calls copy static references bitwise, so the copy equals the original as a
  value);
* a Rust panic (`unreachable!()`, out-of-bounds indexing) is an
  `Except.error Panic _` result;
* the `#[cfg(not(feature = "i_really_want_memory_leak"))] drop(...)` line is
  exposed as a `descriptorFreed` flag on the outcome, with the feature flag a
  `Bool` parameter;
* a field value (`&dyn Debug` / `&dyn Value`) is modelled by its rendered
  debug text, so `format!` over it is the identity;
* call-site identity (`callsite::Identifier`, a `&'static dyn Callsite`
  compared by address) is modelled by a `Nat`.
-/

namespace TracingRewrite

/-- `tracing::Level` severities. -/
inductive Level where
  | trace
  | debug
  | info
  | warn
  | error
deriving DecidableEq, Repr

/-- `tracing_core::Kind`: a set of flags over the event/span/hint bits.
`Kind::EVENT`, `Kind::SPAN`, `Kind::HINT` are the primitive constants;
`Metadata::is_event` / `is_span` test the corresponding bit. -/
structure Kind where
  eventBit : Bool
  spanBit : Bool
  hintBit : Bool
deriving DecidableEq, Repr

def Kind.EVENT : Kind := ⟨true, false, false⟩

def Kind.SPAN : Kind := ⟨false, true, false⟩

def Kind.HINT : Kind := ⟨false, false, true⟩

/-- `tracing::field::FieldSet`: a static list of field names plus the
call-site identifier that validates field/value compatibility. -/
structure FieldSet where
  names : List String
  callsite : Nat
deriving DecidableEq, Repr

/-- `tracing_core::Field`: an index into a `FieldSet`'s name list together
with (a copy of) that `FieldSet`. -/
structure Field where
  i : Nat
  fields : FieldSet
deriving DecidableEq, Repr

/-- `FieldSet::field(name)`: position of `name` in the name list, as a
`Field` handle. -/
def FieldSet.field (fs : FieldSet) (name : String) : Option Field :=
  (fs.names.findIdx? (fun n => n = name)).map (fun i => { i := i, fields := fs })

/-- `tracing::Metadata`: the immutable event descriptor. Its call-site
identity lives inside `fields`. -/
structure Metadata where
  name : String
  target : String
  level : Level
  file : Option String
  line : Option Nat
  module_path : Option String
  fields : FieldSet
  kind : Kind
deriving DecidableEq, Repr

/-- `Metadata::is_event`. -/
def Metadata.is_event (m : Metadata) : Bool := m.kind.eventBit

/-- `Metadata::is_span`. -/
def Metadata.is_span (m : Metadata) : Bool := m.kind.spanBit

/-- `tracing_core::ValueSet`: a field set together with
(field, optional value) entries; values are modelled by their rendered
debug text. -/
structure ValueSet where
  fields : FieldSet
  entries : List (Field × Option String)
deriving DecidableEq, Repr

/-- `ValueSet::record`: the (field, value) pairs the value set presents to a
visitor, in entry order — entries whose field carries a different call-site
identity are silently skipped, as are entries with no value. -/
def ValueSet.visitList (vs : ValueSet) : List (Field × String) :=
  vs.entries.filterMap (fun e =>
    if e.1.fields.callsite = vs.fields.callsite then e.2.map (fun s => (e.1, s))
    else none)

/-- `tracing_core::event::Parent`: root, contextual (current), or an
explicit parent span id. -/
inductive Parent where
  | root
  | current
  | explicit (id : Nat)
deriving DecidableEq, Repr

/-- `tracing::Event`: descriptor, value set, parent relation. -/
structure EventRec where
  metadata : Metadata
  values : ValueSet
  parent : Parent
deriving DecidableEq, Repr

/-- `Event::parent()`: `Some` only for an explicitly assigned parent. -/
def EventRec.parentId (e : EventRec) : Option Nat :=
  match e.parent with
  | .explicit p => some p
  | _ => none

/-- A Rust panic observable in this code: the `unreachable!()` in the kind
match, or an out-of-bounds slot index in `Visitor::record_debug`. -/
inductive Panic where
  | unreachableKind
  | indexOutOfBounds
deriving DecidableEq, Repr

/-! ## The bounded field-capture visitor (`mod visitor`) -/

def FAKE_FIELD_NAME : String := "foo"

/-- The address of the `FAKE_CALLSITE` static; reserved, never used by any
real descriptor. -/
def FAKE_CALLSITE : Nat := 0

/-- `FAKE_META`: the placeholder metadata declared by the `metadata!`
invocation inside `mod visitor`, whose field set holds the single name
`"foo"` bound to `FAKE_CALLSITE`. -/
def FAKE_META : Metadata :=
  { name := ""
    target := "tracing_rewrite::visitor"
    level := Level.info
    file := some "src/lib.rs"
    line := some 112
    module_path := some "tracing_rewrite::visitor"
    fields := { names := [FAKE_FIELD_NAME], callsite := FAKE_CALLSITE }
    kind := Kind.SPAN }

/-- `FAKE_META.fields().field(FAKE_FIELD_NAME).unwrap()` — the placeholder
field handle filling unused visitor slots; the `unwrap` provably succeeds. -/
def fakeField : Field := (FAKE_META.fields.field FAKE_FIELD_NAME).get (by decide)

/-- `Visitor<N>`: insertion cursor plus the slot array (a list of length `N`
throughout). -/
structure Visitor where
  index : Nat
  values : List (Field × Option String)
deriving DecidableEq, Repr

/-- `Visitor::<N>::new()`: cursor 0, every slot holds the placeholder field
and no value. -/
def Visitor.new (N : Nat) : Visitor :=
  { index := 0, values := List.replicate N (fakeField, none) }

/-- `Visitor::record_debug`: copies the field handle bitwise
(`transmute_copy`), stores it with the rendered value at the cursor, and
advances the cursor.  `self.values[self.index] = ...` panics when the cursor
is out of bounds — there is no capacity check. -/
def Visitor.record_debug (v : Visitor) (field : Field) (value : String) :
    Except Panic Visitor :=
  let cloned := field
  if v.index < v.values.length then
    Except.ok { index := v.index + 1, values := v.values.set v.index (cloned, some value) }
  else
    Except.error Panic.indexOutOfBounds

/-- `Visitor::get_values`: the full slot array, in slot order. -/
def Visitor.get_values (v : Visitor) : List (Field × Option String) :=
  v.values

/-- `event.record(&mut visitor)`: feed every visited (field, value) pair to
`record_debug` in order, propagating a panic. -/
def runRecord (v : Visitor) : List (Field × String) → Except Panic Visitor
  | [] => Except.ok v
  | e :: rest =>
    match v.record_debug e.1 e.2 with
    | Except.error p => Except.error p
    | Except.ok v' => runRecord v' rest

/-! ## The level-override formatter (`EventFormatter::format_event`) -/

/-- The kind recomputation at the head of the override branch:
`if is_event { EVENT } else if is_span { SPAN } else { unreachable!() }`,
with `none` standing for the `unreachable!()` arm. -/
def kindOf (m : Metadata) : Option Kind :=
  if m.is_event then some Kind.EVENT
  else if m.is_span then some Kind.SPAN
  else none

/-- What one `format_event` call did: which branch ran, the event handed to
the downstream formatter, the downstream formatter's result, and whether the
leaked descriptor box was freed afterwards. -/
structure Outcome (ρ : Type) where
  reconstructed : Bool
  passed : EventRec
  result : ρ
  descriptorFreed : Bool
deriving DecidableEq, Repr

/-- `EventFormatter::<N, F, T>::format_event`, with the downstream formatter
abstracted as `fmt : EventRec → ρ` (its result type `ρ` covers both
`Ok`/`Err` of `std::fmt::Result`) and the
`i_really_want_memory_leak` feature as the `memleak` flag. -/
def format_event {ρ : Type} (N : Nat) (check : Metadata → Option Level)
    (memleak : Bool) (fmt : EventRec → ρ) (event : EventRec) :
    Except Panic (Outcome ρ) :=
  let metadata := event.metadata
  match check metadata with
  | some level =>
    match kindOf metadata with
    | none => Except.error Panic.unreachableKind
    | some kind =>
      let fields := metadata.fields
      -- `transmute_copy::<FieldSet, FieldSet>` duplicates the static
      -- references bitwise: the copy equals the original as a value.
      let cloned := fields
      -- `Box::leak(Box::new(Metadata::new(...)))`
      let newMeta : Metadata :=
        { name := metadata.name
          target := metadata.target
          level := level
          file := metadata.file
          line := metadata.line
          module_path := metadata.module_path
          fields := cloned
          kind := kind }
      match runRecord (Visitor.new N) event.values.visitList with
      | Except.error p => Except.error p
      | Except.ok visitor =>
        let values := visitor.get_values
        -- `fields.value_set(&values)` — built on the original `FieldSet`
        -- binding, bitwise identical to `newMeta.fields`.
        let valueset : ValueSet := { fields := fields, entries := values }
        let newEvent : EventRec :=
          match event.parentId with
          | some p => { metadata := newMeta, values := valueset, parent := Parent.explicit p }
          | none => { metadata := newMeta, values := valueset, parent := Parent.current }
        let res := fmt newEvent
        -- `#[cfg(not(feature = "i_really_want_memory_leak"))] drop(...)`
        Except.ok { reconstructed := true, passed := newEvent, result := res,
                    descriptorFreed := !memleak }
  | none =>
    Except.ok { reconstructed := false, passed := event, result := fmt event,
                descriptorFreed := false }

/-! ## Derived descriptions of what the override branch computes -/

/-- The metadata built by the override branch: every component of the
original except the level (the predicate's) and the kind (recomputed). -/
def overrideMeta (m : Metadata) (level : Level) (k : Kind) : Metadata :=
  { name := m.name, target := m.target, level := level, file := m.file, line := m.line,
    module_path := m.module_path, fields := m.fields, kind := k }

/-- The slot array produced by running the visitor over the event: the
visited pairs in order, then placeholder slots up to capacity. -/
def capturedSlots (N : Nat) (event : EventRec) : List (Field × Option String) :=
  event.values.visitList.map (fun e => (e.1, some e.2)) ++
    List.replicate (N - event.values.visitList.length) (fakeField, none)

/-- The reconstructed event handed to the downstream formatter. -/
def overrideEvent (N : Nat) (event : EventRec) (level : Level) (k : Kind) : EventRec :=
  { metadata := overrideMeta event.metadata level k
    values := { fields := event.metadata.fields, entries := capturedSlots N event }
    parent := match event.parentId with
              | some p => Parent.explicit p
              | none => Parent.current }

/-! ## Concrete fixtures -/

/-- A concrete two-field descriptor for the concrete instances below. -/
def exMeta : Metadata :=
  { name := "evt", target := "app", level := Level.error, file := some "src/main.rs",
    line := some 42, module_path := some "app",
    fields := { names := ["a", "b"], callsite := 7 }, kind := Kind.EVENT }

/-- A concrete event at `exMeta` carrying values for both fields. -/
def exEvent : EventRec :=
  { metadata := exMeta,
    values := { fields := exMeta.fields,
                entries := [(⟨0, exMeta.fields⟩, some "1"), (⟨1, exMeta.fields⟩, some "2")] },
    parent := Parent.current }

/-- A predicate overriding every event to `warn`. -/
def exCheck : Metadata → Option Level := fun _ => some Level.warn

/-- A downstream formatter whose output is the name of the event it sees. -/
def exFmt : EventRec → String := fun e => e.metadata.name

/-- A descriptor reporting neither event nor span kind. -/
def exHintMeta : Metadata :=
  { exMeta with kind := Kind.HINT }

/-- An event at the hint-kind descriptor. -/
def exHintEvent : EventRec :=
  { exEvent with metadata := exHintMeta }

/-- `exEvent` with an explicit parent span id. -/
def exChildEvent : EventRec :=
  { exEvent with parent := Parent.explicit 5 }

/-- A concrete one-entry visit list. -/
def exEntries : List (Field × String) := [(⟨0, exMeta.fields⟩, "1")]

/-! ## Lemmas about the visitor -/

lemma set_append_len {α : Type} (pre : List α) (l : List α) (a : α) :
    (pre ++ l).set pre.length a = pre ++ l.set 0 a := by
  induction pre with
  | nil => simp
  | cons x xs ih => simp [List.set, ih]

/-- Running the visitor within capacity fills the next slots in order and
leaves the remaining placeholder slots untouched. -/
lemma runRecord_fill (entries : List (Field × String)) :
    ∀ (pre : List (Field × Option String)) (m : Nat), entries.length ≤ m →
      runRecord ⟨pre.length, pre ++ List.replicate m (fakeField, none)⟩ entries =
        Except.ok ⟨pre.length + entries.length,
          pre ++ entries.map (fun e => (e.1, some e.2)) ++
            List.replicate (m - entries.length) (fakeField, none)⟩ := by
  induction entries with
  | nil => intro pre m _; simp [runRecord]
  | cons e rest ih =>
    intro pre m h
    match m, h with
    | m' + 1, h =>
      have hc : pre.length < (pre ++ List.replicate (m' + 1)
          ((fakeField : Field), (none : Option String))).length := by
        simp
      have hset : (pre ++ List.replicate (m' + 1)
            ((fakeField : Field), (none : Option String))).set pre.length (e.1, some e.2)
          = (pre ++ [(e.1, some e.2)]) ++ List.replicate m' (fakeField, none) := by
        rw [set_append_len]
        simp [List.replicate_succ]
      have step : Visitor.record_debug ⟨pre.length,
            pre ++ List.replicate (m' + 1) (fakeField, none)⟩ e.1 e.2
          = Except.ok ⟨pre.length + 1,
              (pre ++ [(e.1, some e.2)]) ++ List.replicate m' (fakeField, none)⟩ := by
        simp [Visitor.record_debug, hc, hset]
      have h2 : rest.length ≤ m' := Nat.succ_le_succ_iff.mp h
      have ihx := ih (pre ++ [(e.1, some e.2)]) m' h2
      simp only [List.length_append, List.length_cons, List.length_nil] at ihx
      rw [show pre.length + (0 + 1) = pre.length + 1 from by omega] at ihx
      rw [runRecord, step]
      show runRecord ⟨pre.length + 1,
          pre ++ [(e.1, some e.2)] ++ List.replicate m' (fakeField, none)⟩ rest = _
      rw [ihx]
      have hidx : pre.length + 1 + rest.length = pre.length + (e :: rest).length := by
        simp; omega
      have hvals : pre ++ [(e.1, some e.2)] ++ List.map (fun e => (e.1, some e.2)) rest ++
            List.replicate (m' - rest.length) ((fakeField : Field), (none : Option String))
          = pre ++ List.map (fun e => (e.1, some e.2)) (e :: rest) ++
            List.replicate (m' + 1 - (e :: rest).length) (fakeField, none) := by
        simp [List.append_assoc, Nat.succ_sub_succ]
      rw [hidx, hvals]

/-- A fresh visitor run within capacity captures every visited pair. -/
lemma runRecord_new (N : Nat) (entries : List (Field × String)) (h : entries.length ≤ N) :
    runRecord (Visitor.new N) entries =
      Except.ok ⟨entries.length, entries.map (fun e => (e.1, some e.2)) ++
        List.replicate (N - entries.length) (fakeField, none)⟩ := by
  have := runRecord_fill entries [] N h
  simpa [Visitor.new] using this

lemma runRecord_append (a b : List (Field × String)) :
    ∀ v : Visitor, runRecord v (a ++ b) =
      match runRecord v a with
      | Except.error p => Except.error p
      | Except.ok v' => runRecord v' b := by
  induction a with
  | nil => intro v; simp [runRecord]
  | cons e rest ih =>
    intro v
    simp only [List.cons_append, runRecord]
    cases v.record_debug e.1 e.2 with
    | error p => simp
    | ok v' => simp [ih]

/-- A record call with the cursor at or past the slot-array length panics. -/
lemma record_debug_oob (v : Visitor) (f : Field) (s : String)
    (h : v.values.length ≤ v.index) :
    v.record_debug f s = Except.error Panic.indexOutOfBounds := by
  simp [Visitor.record_debug, Nat.not_lt.mpr h]

/-- A fresh visitor run over more pairs than its capacity panics. -/
lemma runRecord_overflow (N : Nat) (entries : List (Field × String))
    (h : N < entries.length) :
    runRecord (Visitor.new N) entries = Except.error Panic.indexOutOfBounds := by
  rw [← List.take_append_drop N entries, runRecord_append]
  have htake : (entries.take N).length = N := by
    simp [Nat.le_of_lt h]
  rw [runRecord_new N (entries.take N) (Nat.le_of_eq htake)]
  cases hd : entries.drop N with
  | nil =>
    have : entries.length ≤ N := by
      have := List.length_drop N entries
      rw [hd] at this
      simp at this
      omega
    omega
  | cons e rest =>
    show runRecord _ (e :: rest) = _
    rw [runRecord, record_debug_oob]
    simp [htake]

/-! ## The override branch in one equation -/

/-- Under an override decision, a recognized kind and enough capacity,
`format_event` produces exactly the reconstructed event of `overrideEvent`
and hands it downstream, freeing the descriptor unless the leak feature is
on. -/
lemma format_event_override {ρ : Type} (N : Nat) (check : Metadata → Option Level)
    (memleak : Bool) (fmt : EventRec → ρ) (event : EventRec) (level : Level) (k : Kind)
    (h : check event.metadata = some level)
    (hk : kindOf event.metadata = some k)
    (hlen : event.values.visitList.length ≤ N) :
    format_event N check memleak fmt event =
      Except.ok { reconstructed := true, passed := overrideEvent N event level k,
                  result := fmt (overrideEvent N event level k),
                  descriptorFreed := !memleak } := by
  simp only [format_event, h, hk, runRecord_new N _ hlen]
  cases hp : event.parentId <;>
    simp [overrideEvent, overrideMeta, capturedSlots, Visitor.get_values, hp]

/-! ## The claims -/

/-- C1 (amended): for an event that triggers an override and carries
strictly more field values than the buffer capacity `N`, the record call
after the `N`-th panics with an index-out-of-bounds — excess fields are not
silently dropped, and no reconstructed event is produced. -/
theorem overflow_record_panics {ρ : Type} (N : Nat) (check : Metadata → Option Level)
    (memleak : Bool) (fmt : EventRec → ρ) (event : EventRec) (level : Level) (k : Kind)
    (h : check event.metadata = some level)
    (hk : kindOf event.metadata = some k)
    (hlen : N < event.values.visitList.length) :
    format_event N check memleak fmt event = Except.error Panic.indexOutOfBounds := by
  simp only [format_event, h, hk, runRecord_overflow N _ hlen]

/-- C1 counterexample: at capacity 1, an overridden event with two field
values crashes `format_event` with an index-out-of-bounds panic instead of
silently capturing one field — `Visitor::record_debug` has no capacity
check. -/
theorem overflow_silent_noop_cex :
    format_event 1 exCheck false exFmt exEvent = Except.error Panic.indexOutOfBounds := by
  rfl

/-- Witness for `overflow_record_panics` at a concrete input. -/
theorem overflow_record_panics_witness :
    format_event 1 exCheck false exFmt exChildEvent = Except.error Panic.indexOutOfBounds :=
  overflow_record_panics 1 exCheck false exFmt exChildEvent Level.warn Kind.EVENT rfl rfl
    (by decide)

/-- C2 (amended): on the override path the reconstructed descriptor is
freed exactly when the `i_really_want_memory_leak` feature is off — so
under the default build configuration it is freed immediately after the
downstream formatter returns, and leaking it is the opt-in choice. -/
theorem descriptor_freed_unless_leak_feature {ρ : Type} (N : Nat)
    (check : Metadata → Option Level) (memleak : Bool) (fmt : EventRec → ρ)
    (event : EventRec) (level : Level) (k : Kind)
    (h : check event.metadata = some level)
    (hk : kindOf event.metadata = some k)
    (hlen : event.values.visitList.length ≤ N) :
    Except.map (fun o : Outcome ρ => o.descriptorFreed)
        (format_event N check memleak fmt event) = Except.ok (!memleak) := by
  rw [format_event_override N check memleak fmt event level k h hk hlen]
  rfl

/-- C2 counterexample: under the default configuration (leak feature off) a
concrete overridden event has its descriptor freed, contradicting the claim
that the default never frees it. -/
theorem default_never_frees_cex :
    Except.map (fun o : Outcome String => o.descriptorFreed)
      (format_event 2 exCheck false exFmt exEvent) = Except.ok true := by
  rfl

/-- Witness for `descriptor_freed_unless_leak_feature`: with the leak
feature on, the descriptor of a concrete overridden event is not freed. -/
theorem descriptor_freed_unless_leak_feature_witness :
    Except.map (fun o : Outcome String => o.descriptorFreed)
      (format_event 2 exCheck true exFmt exEvent) = Except.ok false :=
  descriptor_freed_unless_leak_feature 2 exCheck true exFmt exEvent Level.warn Kind.EVENT
    rfl rfl (by decide)

/-- C3: when the predicate returns no override, `format_event` hands the
original event unmodified to the downstream formatter and returns exactly
the downstream formatter's result on it; nothing is reconstructed or
freed. -/
theorem passthrough_on_none {ρ : Type} (N : Nat) (check : Metadata → Option Level)
    (memleak : Bool) (fmt : EventRec → ρ) (event : EventRec)
    (h : check event.metadata = none) :
    format_event N check memleak fmt event =
      Except.ok { reconstructed := false, passed := event, result := fmt event,
                  descriptorFreed := false } := by
  simp [format_event, h]

/-- Witness for `passthrough_on_none` at a concrete input. -/
theorem passthrough_on_none_witness :
    format_event 2 (fun _ => none) false exFmt exEvent =
      Except.ok { reconstructed := false, passed := exEvent, result := exFmt exEvent,
                  descriptorFreed := false } :=
  passthrough_on_none 2 (fun _ => none) false exFmt exEvent rfl

/-- C4: when the predicate returns a new level, the reconstructed
descriptor keeps the original name, target, file, line, module path and
field set (hence field-name list and call-site identity) and differs only
in the level — the predicate's — and the kind recomputed from the original
descriptor. -/
theorem override_descriptor_fields {ρ : Type} (N : Nat) (check : Metadata → Option Level)
    (memleak : Bool) (fmt : EventRec → ρ) (event : EventRec) (level : Level) (k : Kind)
    (h : check event.metadata = some level)
    (hk : kindOf event.metadata = some k)
    (hlen : event.values.visitList.length ≤ N) :
    Except.map (fun o : Outcome ρ => o.passed.metadata)
        (format_event N check memleak fmt event) =
      Except.ok { name := event.metadata.name, target := event.metadata.target,
                  level := level, file := event.metadata.file, line := event.metadata.line,
                  module_path := event.metadata.module_path,
                  fields := event.metadata.fields, kind := k } := by
  rw [format_event_override N check memleak fmt event level k h hk hlen]
  rfl

/-- Witness for `override_descriptor_fields` at a concrete input. -/
theorem override_descriptor_fields_witness :
    Except.map (fun o : Outcome String => o.passed.metadata)
        (format_event 2 exCheck false exFmt exEvent) =
      Except.ok { name := exEvent.metadata.name, target := exEvent.metadata.target,
                  level := Level.warn, file := exEvent.metadata.file,
                  line := exEvent.metadata.line,
                  module_path := exEvent.metadata.module_path,
                  fields := exEvent.metadata.fields, kind := Kind.EVENT } :=
  override_descriptor_fields 2 exCheck false exFmt exEvent Level.warn Kind.EVENT rfl rfl
    (by decide)

/-- C5: the value set handed downstream carries the same field set as the
new descriptor (the bitwise copy of the original's, so the two are equal as
values), its entries are exactly the captured (field handle, optional
value) pairs padded with placeholder slots, and — when the original entries
carry the descriptor's field set, as the substrate constructs them — every
captured field handle carries that same field set the new descriptor
holds. -/
theorem valueset_from_new_descriptor {ρ : Type} (N : Nat) (check : Metadata → Option Level)
    (memleak : Bool) (fmt : EventRec → ρ) (event : EventRec) (level : Level) (k : Kind)
    (h : check event.metadata = some level)
    (hk : kindOf event.metadata = some k)
    (hlen : event.values.visitList.length ≤ N)
    (hwf : ∀ e ∈ event.values.entries, e.1.fields = event.metadata.fields) :
    Except.map
        (fun o : Outcome ρ => (o.passed.values.fields, o.passed.metadata.fields,
                               o.passed.values.entries))
        (format_event N check memleak fmt event) =
      Except.ok (event.metadata.fields, event.metadata.fields,
        event.values.visitList.map (fun e => (e.1, some e.2)) ++
          List.replicate (N - event.values.visitList.length) (fakeField, none)) ∧
    ∀ e ∈ event.values.visitList, e.1.fields = event.metadata.fields := by
  constructor
  · rw [format_event_override N check memleak fmt event level k h hk hlen]
    rfl
  · intro e he
    rcases List.mem_filterMap.mp he with ⟨a, ha, hfa⟩
    by_cases hcs : a.1.fields.callsite = event.values.fields.callsite
    · rw [if_pos hcs] at hfa
      rcases Option.map_eq_some'.mp hfa with ⟨s, _, hs⟩
      rw [← hs]
      exact hwf a ha
    · rw [if_neg hcs] at hfa
      cases hfa

/-- Witness for `valueset_from_new_descriptor` at a concrete input. -/
theorem valueset_from_new_descriptor_witness :
    Except.map
        (fun o : Outcome String => (o.passed.values.fields, o.passed.metadata.fields,
                                    o.passed.values.entries))
        (format_event 2 exCheck false exFmt exEvent) =
      Except.ok (exEvent.metadata.fields, exEvent.metadata.fields,
        exEvent.values.visitList.map (fun e => (e.1, some e.2)) ++
          List.replicate (2 - exEvent.values.visitList.length) (fakeField, none)) ∧
    ∀ e ∈ exEvent.values.visitList, e.1.fields = exEvent.metadata.fields :=
  valueset_from_new_descriptor 2 exCheck false exFmt exEvent Level.warn Kind.EVENT rfl rfl
    (by decide) (by decide)

/-- C6: a descriptor reporting event or span kind never reaches the
`unreachable!()` arm of the kind computation; when it reports neither,
`format_event` aborts with that panic instead of producing a reconstructed
event. -/
theorem kind_unreachable_safety {ρ : Type} (N : Nat) (check : Metadata → Option Level)
    (memleak : Bool) (fmt : EventRec → ρ) (event : EventRec) (level : Level)
    (h : check event.metadata = some level) :
    ((event.metadata.is_event = true ∨ event.metadata.is_span = true) →
       (kindOf event.metadata).isSome = true) ∧
    (event.metadata.is_event = false → event.metadata.is_span = false →
       format_event N check memleak fmt event = Except.error Panic.unreachableKind) := by
  constructor
  · intro hor
    rcases hor with he | hs
    · simp [kindOf, he]
    · cases hev : event.metadata.is_event <;> simp [kindOf, hev, hs]
  · intro he hs
    simp [format_event, h, kindOf, he, hs]

/-- Witness for `kind_unreachable_safety` at a hint-kind event. -/
theorem kind_unreachable_safety_witness :
    ((exHintEvent.metadata.is_event = true ∨ exHintEvent.metadata.is_span = true) →
       (kindOf exHintEvent.metadata).isSome = true) ∧
    (exHintEvent.metadata.is_event = false → exHintEvent.metadata.is_span = false →
       format_event 2 exCheck false exFmt exHintEvent =
         Except.error Panic.unreachableKind) :=
  kind_unreachable_safety 2 exCheck false exFmt exHintEvent Level.warn rfl

/-- C7: on the override path, an event with an explicit parent is rebuilt
as a child of that same parent, and an event without an explicit parent is
rebuilt with no explicit parent (contextual parent). -/
theorem parent_preserved {ρ : Type} (N : Nat) (check : Metadata → Option Level)
    (memleak : Bool) (fmt : EventRec → ρ) (event : EventRec) (level : Level) (k : Kind)
    (h : check event.metadata = some level)
    (hk : kindOf event.metadata = some k)
    (hlen : event.values.visitList.length ≤ N) :
    (∀ p, event.parent = Parent.explicit p →
       Except.map (fun o : Outcome ρ => o.passed.parent)
           (format_event N check memleak fmt event) = Except.ok (Parent.explicit p)) ∧
    (event.parentId = none →
       Except.map (fun o : Outcome ρ => o.passed.parent)
           (format_event N check memleak fmt event) = Except.ok Parent.current) := by
  rw [format_event_override N check memleak fmt event level k h hk hlen]
  constructor
  · intro p hp
    simp only [overrideEvent, EventRec.parentId, hp]
    rfl
  · intro hp
    simp only [overrideEvent, hp]
    rfl

/-- Witness for `parent_preserved` at an event with explicit parent 5. -/
theorem parent_preserved_witness :
    (∀ p, exChildEvent.parent = Parent.explicit p →
       Except.map (fun o : Outcome String => o.passed.parent)
           (format_event 2 exCheck false exFmt exChildEvent) =
         Except.ok (Parent.explicit p)) ∧
    (exChildEvent.parentId = none →
       Except.map (fun o : Outcome String => o.passed.parent)
           (format_event 2 exCheck false exFmt exChildEvent) = Except.ok Parent.current) :=
  parent_preserved 2 exCheck false exFmt exChildEvent Level.warn Kind.EVENT rfl rfl
    (by decide)

/-- C8: `format_event` introduces no result of its own — on every branch
that returns, its formatting result is exactly the downstream formatter's
result on the event it was handed, with no wrapping or translation. -/
theorem result_is_downstream {ρ : Type} (N : Nat) (check : Metadata → Option Level)
    (memleak : Bool) (fmt : EventRec → ρ) (event : EventRec) :
    Except.map (fun o : Outcome ρ => o.result) (format_event N check memleak fmt event) =
      Except.map (fun o : Outcome ρ => fmt o.passed)
        (format_event N check memleak fmt event) := by
  simp only [format_event]
  cases check event.metadata with
  | none => rfl
  | some level =>
    cases kindOf event.metadata with
    | none => rfl
    | some k =>
      cases runRecord (Visitor.new N) event.values.visitList with
      | error p => rfl
      | ok v =>
        cases event.parentId with
        | none => rfl
        | some p => rfl

/-- C9: `get_values` returns the full `N`-slot array in slot order; slots
not filled by a record call hold the placeholder field handle bound to the
reserved `FAKE_META` field declaration — whose call-site identity differs
from that of every descriptor declared at another call site — paired with
an absent value. -/
theorem get_values_full_slots (N : Nat) (entries : List (Field × String))
    (h : entries.length ≤ N) :
    Except.map Visitor.get_values (runRecord (Visitor.new N) entries) =
      Except.ok (entries.map (fun e => (e.1, some e.2)) ++
        List.replicate (N - entries.length) (fakeField, none)) ∧
    (entries.map (fun e : Field × String => ((e.1 : Field), some e.2)) ++
        List.replicate (N - entries.length) (fakeField, (none : Option String))).length = N ∧
    fakeField.fields = FAKE_META.fields ∧
    fakeField.fields.callsite = FAKE_CALLSITE ∧
    ∀ m : Metadata, m.fields.callsite ≠ FAKE_CALLSITE →
      fakeField.fields.callsite ≠ m.fields.callsite := by
  refine ⟨?_, ?_, ?_, ?_, ?_⟩
  · rw [runRecord_new N entries h]
    rfl
  · simp
    omega
  · rfl
  · rfl
  · intro m hm
    have hc : fakeField.fields.callsite = FAKE_CALLSITE := rfl
    rw [hc]
    exact fun heq => hm heq.symm

/-- Witness for `get_values_full_slots` at a one-entry run into three
slots. -/
theorem get_values_full_slots_witness :
    Except.map Visitor.get_values (runRecord (Visitor.new 3) exEntries) =
      Except.ok (exEntries.map (fun e => (e.1, some e.2)) ++
        List.replicate (3 - exEntries.length) (fakeField, none)) ∧
    (exEntries.map (fun e : Field × String => ((e.1 : Field), some e.2)) ++
        List.replicate (3 - exEntries.length) (fakeField, (none : Option String))).length = 3 ∧
    fakeField.fields = FAKE_META.fields ∧
    fakeField.fields.callsite = FAKE_CALLSITE ∧
    ∀ m : Metadata, m.fields.callsite ≠ FAKE_CALLSITE →
      fakeField.fields.callsite ≠ m.fields.callsite :=
  get_values_full_slots 3 exEntries (by decide)

/-- C10: the reconstruction branch runs exactly when the predicate returns
a level — even a level equal to the event's original one; pass-through
happens only when the predicate returns no override. -/
theorem reconstruct_iff_some {ρ : Type} (N : Nat) (check : Metadata → Option Level)
    (memleak : Bool) (fmt : EventRec → ρ) (event : EventRec) :
    Except.map (fun o : Outcome ρ => o.reconstructed)
        (format_event N check memleak fmt event) =
      Except.map (fun _ : Outcome ρ => (check event.metadata).isSome)
        (format_event N check memleak fmt event) := by
  simp only [format_event]
  cases check event.metadata with
  | none => rfl
  | some level =>
    cases kindOf event.metadata with
    | none => rfl
    | some k =>
      cases runRecord (Visitor.new N) event.values.visitList with
      | error p => rfl
      | ok v =>
        cases event.parentId with
        | none => rfl
        | some p => rfl

end TracingRewrite
